import Mathlib

/-!
# Verification of the mail-guard-pilot discovery-and-verification pipeline

Shallow embedding of the pure/algorithmic parts of the repository's edge
functions, and proofs of the specification's claims about them:

* `supabase/functions/verify-email-advanced/index.ts` — syntax validation,
  disposable-domain check, scoring and confidence tiers (`VerifyAdvanced`);
* `supabase/functions/crawl-domain/index.ts` — local-part pattern detection
  (`CrawlDomain`);
* `supabase/functions/generate-email-candidates/index.ts` — candidate
  generation and the Test status flow (`GenCandidates`, `GenFlow`);
* the bounce/delivery webhook handler (`BounceWebhook`).

JavaScript string primitives (`split`, `includes`, `replace(/…/g)`,
`toLowerCase`, `charAt`) are modelled by executable char-list functions
defined below; network-dependent sub-checks (DNS/MX lookup, SMTP
deliverability probing) are abstracted as an explicit environment record
holding their outcomes.
-/

/-- `startsWithChars needle hay` — does `hay` start with `needle`?
Models the anchoring step of JS `String.prototype.includes`. -/
def startsWithChars : List Char → List Char → Bool
  | [], _ => true
  | _ :: _, [] => false
  | c :: cs, d :: ds => c == d && startsWithChars cs ds

/-- `includesChars needle hay` — does `needle` occur contiguously in `hay`?
Models JS `hay.includes(needle)`. -/
def includesChars (needle : List Char) : List Char → Bool
  | [] => startsWithChars needle []
  | c :: cs => startsWithChars needle (c :: cs) || includesChars needle cs

/-- JS `hay.includes(needle)` on strings. -/
def strIncludes (hay needle : String) : Bool :=
  includesChars needle.data hay.data

/-- JS `str.split(sep)` for a single-character separator: the list of
(maximal, possibly empty) chunks between occurrences of `sep`. -/
def splitOnChar (sep : Char) : List Char → List (List Char)
  | [] => [[]]
  | c :: cs =>
    if c == sep then [] :: splitOnChar sep cs
    else
      match splitOnChar sep cs with
      | [] => [[c]]
      | r :: rs => (c :: r) :: rs

/-- Number of occurrences of a character in a char list. -/
def countChar (c : Char) : List Char → Nat
  | [] => 0
  | d :: ds => (if d == c then 1 else 0) + countChar c ds

/-- JS `str.toLowerCase()` (ASCII range, which is all the code relies on). -/
def listToLower (l : List Char) : List Char := l.map Char.toLower

/-- Replace every (left-to-right, non-overlapping) occurrence of the pattern
`p :: ps` by `rep` — JS `str.replace(/pat/g, rep)` for a literal pattern.
The pattern is passed with an exposed head so it is never empty. -/
def replaceAllChars (p : Char) (ps rep : List Char) : List Char → List Char
  | [] => []
  | c :: cs =>
    if startsWithChars (p :: ps) (c :: cs) then
      rep ++ replaceAllChars p ps rep (cs.drop ps.length)
    else
      c :: replaceAllChars p ps rep cs
  termination_by l => l.length
  decreasing_by
    · simp only [List.length_drop, List.length_cons]; omega
    · simp only [List.length_cons]; omega

/-- Is there a pair of consecutive dots?  Models JS `email.includes('..')`
specialised to the two-dot needle. -/
def hasConsecDots : List Char → Bool
  | c :: d :: rest => (c == '.' && d == '.') || hasConsecDots (d :: rest)
  | _ => false

/- ### Basic lemmas about the string helpers -/

theorem splitOnChar_ne_nil (sep : Char) (l : List Char) : splitOnChar sep l ≠ [] := by
  induction l with
  | nil => simp [splitOnChar]
  | cons c cs ih =>
    simp only [splitOnChar]
    split
    · simp
    · cases h : splitOnChar sep cs with
      | nil => simp
      | cons r rs => simp

theorem length_splitOnChar (sep : Char) (l : List Char) :
    (splitOnChar sep l).length = countChar sep l + 1 := by
  induction l with
  | nil => simp [splitOnChar, countChar]
  | cons c cs ih =>
    by_cases h : c == sep
    · simp [splitOnChar, countChar, h, ih]; omega
    · simp only [Bool.not_eq_true] at h
      cases hs : splitOnChar sep cs with
      | nil => exact absurd hs (splitOnChar_ne_nil sep cs)
      | cons r rs =>
        rw [hs] at ih
        simp only [splitOnChar, countChar, h, hs, if_neg, Bool.false_eq_true,
          not_false_iff, List.length_cons] at ih ⊢
        omega

theorem includesChars_single (c : Char) (l : List Char) :
    includesChars [c] l = decide (0 < countChar c l) := by
  induction l with
  | nil => rfl
  | cons d ds ih =>
    simp only [includesChars, startsWithChars, Bool.and_true, countChar, ih]
    by_cases h : c = d
    · subst h
      have hp : 0 < 1 + countChar c ds := by omega
      simp [hp]
    · have h1 : (c == d) = false := by simp [h]
      have h2 : (d == c) = false := by simp [Ne.symm h]
      simp [h1, h2]

/-!
## `verify-email-advanced/index.ts`

Embedding of `validateEmailSyntax`, `isDisposableEmail` and `verifyEmail`.
The two network-dependent sub-checks (`checkMXRecords`,
`checkSMTPDeliverability`) are abstracted as an `Env` record carrying their
outcomes; `verifyEmail` is the pure data flow of the function's try body,
and the exception paths — the in-function catch handler (whose condition
reads the try-scoped `domain` and so itself throws whenever the syntax
flag is true), the serve handler's per-email batch fallback, and the
result the batch observes when the try body throws — are embedded as
`verifyEmailCatch`, `batchFallbackResult` and `errorPathResult`.
-/

namespace VerifyAdvanced

/-- The characters the local-part class of the syntax regex accepts
(letters and digits are checked separately). -/
def localSpecials : String := "!#$%&'*+/=?^_`\x7b|\x7d~.-"

/-- One character of the regex class `[a-zA-Z0-9.!#$%&'*+/=?^_`\x7b|\x7d~-]`. -/
def isLocalChar (c : Char) : Bool :=
  c.isAlpha || c.isDigit || includesChars [c] localSpecials.data

/-- Last element of a char list is alphanumeric (false on the empty list). -/
def lastIsAlnum : List Char → Bool
  | [] => false
  | [c] => c.isAlpha || c.isDigit
  | _ :: c :: cs => lastIsAlnum (c :: cs)

/-- One domain label of the syntax regex:
`[a-zA-Z0-9](?:[a-zA-Z0-9-]\x7b0,61\x7d[a-zA-Z0-9])?` — nonempty, at most 63
characters, first and last alphanumeric, interior alphanumeric or dash. -/
def isDomainLabel (l : List Char) : Bool :=
  match l with
  | [] => false
  | c :: _ =>
    decide (l.length ≤ 63) && (c.isAlpha || c.isDigit) && lastIsAlnum l &&
      l.all (fun d => d.isAlpha || d.isDigit || d == '-')

/-- The anchored email regex of `validateEmailSyntax` (line 32).  Since
neither character class contains `@`, a string matches exactly when it has
one `@`, a nonempty local part of allowed characters, and a dot-separated
sequence of valid labels as domain. -/
def emailRegexMatches (email : String) : Bool :=
  match splitOnChar '@' email.data with
  | [localPart, domain] =>
    !localPart.isEmpty && localPart.all isLocalChar &&
      (splitOnChar '.' domain).all isDomainLabel
  | _ => false

/-- `validateEmailSyntax` (lines 30-49): regex match, exactly one `@`,
length caps (local ≤ 64, domain ≤ 253), no consecutive dots. -/
def validateEmailSyntax (email : String) : Bool :=
  if !emailRegexMatches email then false
  else
    let parts := splitOnChar '@' email.data
    if !(parts.length == 2) then false
    else
      let localPart := parts.getD 0 []
      let domain := parts.getD 1 []
      if localPart.length > 64 || domain.length > 253 then false
      else if hasConsecDots email.data then false
      else true

/-- The static disposable-provider list of `isDisposableEmail` (lines 53-57). -/
def disposableDomains : List String :=
  ["10minutemail.com", "tempmail.org", "guerrillamail.com", "mailinator.com",
   "0-mail.com", "1-mail.com", "2-mail.com", "33mail.com", "throwaway.email",
   "temp-mail.org", "getairmail.com", "fakeinbox.com", "spamgourmet.com"]

/-- `isDisposableEmail` (lines 52-60): some disposable provider occurs as a
substring of the lower-cased domain. -/
def isDisposableEmail (domain : String) : Bool :=
  disposableDomains.any fun d =>
    includesChars d.data (listToLower domain.data)

/-- Confidence tier of a `VerificationResult`. -/
inductive Confidence
  | high
  | medium
  | low
deriving DecidableEq, Repr

/-- The `checks` sub-record of `VerificationResult`.  The source field
`syntax` is rendered `syntaxOk`. -/
structure Checks where
  syntaxOk : Bool
  domain : Bool
  mx : Bool
  smtp : Bool
  catchAll : Bool
  disposable : Bool
deriving DecidableEq, Repr

/-- The `details` sub-record of `VerificationResult`. -/
structure Details where
  mxRecords : Option (List String)
  smtpResponse : Option String
  confidence : Confidence
  provider : Option String
deriving DecidableEq, Repr

/-- `VerificationResult` (lines 9-27). -/
structure VerificationResult where
  email : String
  isValid : Bool
  score : Nat
  checks : Checks
  details : Details
deriving DecidableEq, Repr

/-- The initial all-false result built at the top of `verifyEmail`
(lines 260-275); it is also the value returned on syntax failure. -/
def emptyResult (email : String) : VerificationResult :=
  { email := email
    isValid := false
    score := 0
    checks := { syntaxOk := false, domain := false, mx := false, smtp := false,
                catchAll := false, disposable := false }
    details := { mxRecords := none, smtpResponse := none,
                 confidence := .low, provider := none } }

/-- Outcomes of the two network-dependent sub-checks, abstracted as an
environment: `mxValid`/`mxRecords`/`mxProvider` are the result of
`checkMXRecords domain` (DNS-over-HTTPS with fallbacks), and the `smtp*`
fields the result of `checkSMTPDeliverability email mxRecords`. -/
structure Env where
  mxValid : Bool
  mxRecords : List String
  mxProvider : Option String
  smtpDeliverable : Bool
  smtpCatchAll : Bool
  smtpResponse : String
  smtpProvider : Option String
deriving DecidableEq, Repr

/-- `const domain = email.split('@')[1].toLowerCase()` (line 285). -/
def domainOf (email : String) : String :=
  String.mk (listToLower ((splitOnChar '@' email.data).getD 1 []))

/-- The try body of `verifyEmail` (lines 277-331): syntax short-circuit,
disposable check, MX check (both `checks.domain` and `checks.mx` are set
from `mxCheck.valid`), SMTP check gated on MX, then the scoring block
(lines 308-314), the lenient `isValid` rule (line 319) and the confidence
tiers (lines 322-328). -/
def verifyEmail (email : String) (env : Env) : VerificationResult :=
  if validateEmailSyntax email then
    let dispOk := !isDisposableEmail (domainOf email)
    let mxValid := env.mxValid
    let smtpOk := mxValid && env.smtpDeliverable
    let checks : Checks :=
      { syntaxOk := true, domain := mxValid, mx := mxValid, smtp := smtpOk,
        catchAll := mxValid && env.smtpCatchAll, disposable := dispOk }
    let score :=
      (if checks.syntaxOk then 15 else 0) + (if checks.disposable then 10 else 0) +
        (if checks.domain then 25 else 0) + (if checks.mx then 25 else 0) +
        (if checks.smtp then 25 else 0)
    { email := email
      isValid := decide (50 ≤ score) || (checks.syntaxOk && checks.mx)
      score := score
      checks := checks
      details :=
        { mxRecords := some env.mxRecords
          smtpResponse := if mxValid then some env.smtpResponse else none
          confidence :=
            if decide (85 ≤ score) then .high
            else if decide (50 ≤ score) || (checks.syntaxOk && checks.mx) then .medium
            else .low
          provider :=
            if mxValid && env.smtpProvider.isSome then env.smtpProvider
            else env.mxProvider } }
  else emptyResult email

/-- The catch handler of `verifyEmail` (lines 333-345), applied to the
partial result `r` accumulated before the error.  Its condition reads
`result.checks.syntax && domain`, but `domain` is a `const` declared
inside the try block (line 285) and is not in scope in the catch: when
the syntax flag is false the `&&` short-circuits and the partial result
is returned unchanged; when it is true, evaluating `domain` throws a
ReferenceError out of the catch (`none` here), so the branch that would
set score 50 and confidence `medium` never executes and the promise of
`verifyEmail` rejects. -/
def verifyEmailCatch (r : VerificationResult) : Option VerificationResult :=
  if r.checks.syntaxOk then none
  else some r

/-- The per-email fallback result built by the serve handler's batch
`.catch` (lines 372-392) when `verifyEmail` itself rejects. -/
def batchFallbackResult (email : String) : VerificationResult :=
  { email := email
    isValid := validateEmailSyntax email
    score := if validateEmailSyntax email then 50 else 0
    checks := { syntaxOk := validateEmailSyntax email, domain := false, mx := false,
                smtp := false, catchAll := false, disposable := true }
    details := { mxRecords := none, smtpResponse := some "Error during verification",
                 confidence := .low, provider := none } }

/-- The result the serve handler's batch observes when the try body of
`verifyEmail` throws after accumulating the partial result `r`: the catch
either returns `r` unchanged, or itself throws, in which case the
per-email `.catch` of the batch supplies the fallback. -/
def errorPathResult (email : String) (r : VerificationResult) : VerificationResult :=
  match verifyEmailCatch r with
  | some r' => r'
  | none => batchFallbackResult email

end VerifyAdvanced

namespace VerifyAdvanced

/-- **C1** For every email and every outcome of the network sub-checks, the
result of `verifyEmail` satisfies: the score is 15 for syntax, 10 for
non-disposable, 25 for domain, 25 for MX and 25 for SMTP, summed over the
checks that passed; `isValid` holds exactly when `score ≥ 50` or (syntax
and MX both passed); and the confidence is `high` when `score ≥ 85`,
`medium` when `score ≥ 50` or (syntax and MX) but not high, else `low`. -/
theorem c1_score_isValid_confidence (email : String) (env : Env) :
    (verifyEmail email env).score =
        (if (verifyEmail email env).checks.syntaxOk then 15 else 0) +
          (if (verifyEmail email env).checks.disposable then 10 else 0) +
          (if (verifyEmail email env).checks.domain then 25 else 0) +
          (if (verifyEmail email env).checks.mx then 25 else 0) +
          (if (verifyEmail email env).checks.smtp then 25 else 0) ∧
      (verifyEmail email env).isValid =
        (decide (50 ≤ (verifyEmail email env).score) ||
          ((verifyEmail email env).checks.syntaxOk && (verifyEmail email env).checks.mx)) ∧
      (verifyEmail email env).details.confidence =
        (if decide (85 ≤ (verifyEmail email env).score) then Confidence.high
         else if decide (50 ≤ (verifyEmail email env).score) ||
             ((verifyEmail email env).checks.syntaxOk && (verifyEmail email env).checks.mx) then
           Confidence.medium
         else Confidence.low) := by
  by_cases hs : validateEmailSyntax email
  · cases hd : isDisposableEmail (domainOf email) <;>
      cases hm : env.mxValid <;> cases hsm : env.smtpDeliverable <;>
        simp [verifyEmail, hs, hd, hm, hsm]
  · simp [verifyEmail, hs, emptyResult]

/-- **C2, counterexample** A candidate at a disposable domain with valid
MX but failed deliverability heuristic reaches `score = 65 ≥ 50` although
neither the disposable-clear points nor the deliverability points
contributed — refuting the claimed equivalence. -/
theorem c2_counterexample :
    50 ≤ (verifyEmail "j+4444@mailinator.com"
        { mxValid := true, mxRecords := ["mail.mailinator.com"],
          mxProvider := some "Cloudflare", smtpDeliverable := false,
          smtpCatchAll := false, smtpResponse := "All verification methods failed",
          smtpProvider := none }).score ∧
      (verifyEmail "j+4444@mailinator.com"
        { mxValid := true, mxRecords := ["mail.mailinator.com"],
          mxProvider := some "Cloudflare", smtpDeliverable := false,
          smtpCatchAll := false, smtpResponse := "All verification methods failed",
          smtpProvider := none }).checks.disposable = false ∧
      (verifyEmail "j+4444@mailinator.com"
        { mxValid := true, mxRecords := ["mail.mailinator.com"],
          mxProvider := some "Cloudflare", smtpDeliverable := false,
          smtpCatchAll := false, smtpResponse := "All verification methods failed",
          smtpProvider := none }).checks.smtp = false := by
  decide

/-- **C2, amended** For every candidate, `0 ≤ score ≤ 100`, and
`score ≥ 50` holds exactly when the domain and MX checks contributed their
points (syntax's 15 plus domain+MX's 50 already clear the bar, so no third
contribution is needed). -/
theorem c2_amended_score_bounds (email : String) (env : Env) :
    0 ≤ (verifyEmail email env).score ∧ (verifyEmail email env).score ≤ 100 ∧
      (50 ≤ (verifyEmail email env).score ↔
        (verifyEmail email env).checks.domain = true ∧
          (verifyEmail email env).checks.mx = true) := by
  by_cases hs : validateEmailSyntax email
  · cases hd : isDisposableEmail (domainOf email) <;>
      cases hm : env.mxValid <;> cases hsm : env.smtpDeliverable <;>
        simp [verifyEmail, hs, hd, hm, hsm]
  · simp [verifyEmail, hs, emptyResult]

/-- **C3** An input that fails syntax validation makes `verifyEmail` return
the initial all-false result — `domain`, `mx`, `smtp` false, score 0,
`isValid` false — and the result does not depend on the network
environment at all (no disposable, DNS/MX or deliverability check is
consulted). -/
theorem c3_invalid_syntax_short_circuit (email : String) (env env' : Env)
    (h : validateEmailSyntax email = false) :
    verifyEmail email env = emptyResult email ∧
      (verifyEmail email env).checks.domain = false ∧
      (verifyEmail email env).checks.mx = false ∧
      (verifyEmail email env).checks.smtp = false ∧
      (verifyEmail email env).score = 0 ∧
      (verifyEmail email env).isValid = false ∧
      verifyEmail email env = verifyEmail email env' := by
  refine ⟨?_, ?_, ?_, ?_, ?_, ?_, ?_⟩ <;> simp [verifyEmail, h, emptyResult]

/-- Witness for C3 at the concrete input `"not-an-email"` (no `@`, so the
syntax regex rejects it). -/
theorem c3_witness :
    validateEmailSyntax "not-an-email" = false ∧
      verifyEmail "not-an-email"
          { mxValid := true, mxRecords := ["mx.a"], mxProvider := some "Google",
            smtpDeliverable := true, smtpCatchAll := false,
            smtpResponse := "ok", smtpProvider := some "Corporate" } =
        emptyResult "not-an-email" := by
  refine ⟨by decide, ?_⟩
  exact (c3_invalid_syntax_short_circuit "not-an-email"
    { mxValid := true, mxRecords := ["mx.a"], mxProvider := some "Google",
      smtpDeliverable := true, smtpCatchAll := false,
      smtpResponse := "ok", smtpProvider := some "Corporate" }
    { mxValid := false, mxRecords := [], mxProvider := none,
      smtpDeliverable := false, smtpCatchAll := false,
      smtpResponse := "", smtpProvider := none }
    (by decide)).1

/-- **C4, counterexample** The catch condition reads the try-scoped
constant `domain`, which is not in scope in the catch block, so for a
partial result with the syntax flag set the catch itself throws (`none`)
instead of salvaging, and the result the batch observes for the
syntactically valid `"john@example.com"` has confidence `low`, not the
claimed `medium`. -/
theorem c4_counterexample :
    verifyEmailCatch
        { email := "john@example.com", isValid := false, score := 0,
          checks := { syntaxOk := true, domain := false, mx := false, smtp := false,
                      catchAll := false, disposable := true },
          details := { mxRecords := none, smtpResponse := none,
                       confidence := .low, provider := none } } = none ∧
      (errorPathResult "john@example.com"
        { email := "john@example.com", isValid := false, score := 0,
          checks := { syntaxOk := true, domain := false, mx := false, smtp := false,
                      catchAll := false, disposable := true },
          details := { mxRecords := none, smtpResponse := none,
                       confidence := .low, provider := none } }).details.confidence =
        Confidence.low ∧
      (errorPathResult "john@example.com"
        { email := "john@example.com", isValid := false, score := 0,
          checks := { syntaxOk := true, domain := false, mx := false, smtp := false,
                      catchAll := false, disposable := true },
          details := { mxRecords := none, smtpResponse := none,
                       confidence := .low, provider := none } }).details.confidence ≠
        Confidence.medium := by
  decide

/-- **C4, amended** If the email's syntax check passed and a catastrophic
error interrupts the remaining verification steps, the candidate is still
salvaged as valid with score 50 rather than discarded — but with
confidence `low`, via the serve handler's batch fallback: with the syntax
flag true the in-function catch evaluates the out-of-scope `domain` and
itself throws, so its salvage-to-medium branch never executes. -/
theorem c4_error_salvage (email : String) (r : VerificationResult)
    (hsyn : validateEmailSyntax email = true) (hr : r.checks.syntaxOk = true) :
    verifyEmailCatch r = none ∧
      (errorPathResult email r).isValid = true ∧
      (errorPathResult email r).score = 50 ∧
      (errorPathResult email r).details.confidence = Confidence.low := by
  refine ⟨?_, ?_, ?_, ?_⟩ <;>
    simp [verifyEmailCatch, errorPathResult, batchFallbackResult, hr, hsyn]

/-- Witness for C4: a concrete partial result with `syntaxOk = true` for
`"john@example.com"` makes the catch throw, and the observed salvage is a
low-confidence valid candidate with score 50. -/
theorem c4_witness :
    validateEmailSyntax "john@example.com" = true ∧
      ((errorPathResult "john@example.com"
          { email := "john@example.com", isValid := false, score := 0,
            checks := { syntaxOk := true, domain := false, mx := false, smtp := false,
                        catchAll := false, disposable := true },
            details := { mxRecords := none, smtpResponse := none,
                         confidence := .low, provider := none } }).isValid = true ∧
        (errorPathResult "john@example.com"
          { email := "john@example.com", isValid := false, score := 0,
            checks := { syntaxOk := true, domain := false, mx := false, smtp := false,
                        catchAll := false, disposable := true },
            details := { mxRecords := none, smtpResponse := none,
                         confidence := .low, provider := none } }).score = 50 ∧
        (errorPathResult "john@example.com"
          { email := "john@example.com", isValid := false, score := 0,
            checks := { syntaxOk := true, domain := false, mx := false, smtp := false,
                        catchAll := false, disposable := true },
            details := { mxRecords := none, smtpResponse := none,
                         confidence := .low, provider := none } }).details.confidence =
          Confidence.low) := by
  have h := c4_error_salvage "john@example.com"
    { email := "john@example.com", isValid := false, score := 0,
      checks := { syntaxOk := true, domain := false, mx := false, smtp := false,
                  catchAll := false, disposable := true },
      details := { mxRecords := none, smtpResponse := none,
                   confidence := .low, provider := none } }
    (by decide) rfl
  exact ⟨by decide, h.2.1, h.2.2.1, h.2.2.2⟩

/-- **C10** In every result the program produces — the normal path, the
error path (where the catch either returns the partial result unchanged
or itself throws, handing the batch fallback to the observer), and the
batch fallback itself — `checks.domain` and `checks.mx` agree, both being
set from the same MX-lookup outcome. -/
theorem c10_domain_eq_mx (email : String) (env : Env) (r : VerificationResult)
    (h : r.checks.domain = r.checks.mx) :
    (verifyEmail email env).checks.domain = (verifyEmail email env).checks.mx ∧
      (errorPathResult email r).checks.domain = (errorPathResult email r).checks.mx ∧
      (batchFallbackResult email).checks.domain = (batchFallbackResult email).checks.mx := by
  refine ⟨?_, ?_, rfl⟩
  · by_cases hs : validateEmailSyntax email <;> simp [verifyEmail, hs, emptyResult]
  · by_cases hr : r.checks.syntaxOk = true
    · simp [errorPathResult, verifyEmailCatch, batchFallbackResult, hr]
    · simp only [Bool.not_eq_true] at hr
      simp [errorPathResult, verifyEmailCatch, hr, h]

/-- Witness for C10 at a concrete email, environment and partial result. -/
theorem c10_witness :
    (verifyEmail "jane@example.com"
        { mxValid := true, mxRecords := ["mx.example.com"], mxProvider := some "Google",
          smtpDeliverable := true, smtpCatchAll := false,
          smtpResponse := "ok", smtpProvider := none }).checks.domain =
      (verifyEmail "jane@example.com"
        { mxValid := true, mxRecords := ["mx.example.com"], mxProvider := some "Google",
          smtpDeliverable := true, smtpCatchAll := false,
          smtpResponse := "ok", smtpProvider := none }).checks.mx ∧
      (errorPathResult "jane@example.com" (emptyResult "jane@example.com")).checks.domain =
        (errorPathResult "jane@example.com" (emptyResult "jane@example.com")).checks.mx := by
  have h := c10_domain_eq_mx "jane@example.com"
    { mxValid := true, mxRecords := ["mx.example.com"], mxProvider := some "Google",
      smtpDeliverable := true, smtpCatchAll := false,
      smtpResponse := "ok", smtpProvider := none }
    (emptyResult "jane@example.com") (by decide)
  exact ⟨h.1, h.2.1⟩

end VerifyAdvanced

/-!
## `crawl-domain/index.ts` — `detectNamePatterns`

The pattern detector (lines 88-125): each found email's local part is
tested against the three bucket conditions, the buckets keep their samples
in input order, confidence is `min(samples.length / 3, 1)` (a number in
JS, modelled as `ℚ`), and the bucket entries are sorted by descending
confidence (JS stable sort with comparator `b.confidence - a.confidence`).
The JS object holds buckets in first-insertion order; here they are
produced in the fixed order dot / underscore / no-separator, which can
differ from the source only in the relative order of equal-confidence
entries after the final sort — nothing any claim depends on.
-/

namespace CrawlDomain

/-- `email.split('@')[0]` — the local part. -/
def localPartOf (email : String) : List Char :=
  (splitOnChar '@' email.data).headD []

/-- Bucket condition for `'\x7bfirst\x7d.\x7blast\x7d'` (lines 95-101):
contains a dot and splitting on dots yields exactly two parts. -/
def inDotBucket (lp : List Char) : Bool :=
  includesChars ['.'] lp && (splitOnChar '.' lp).length == 2

/-- Bucket condition for `'\x7bfirst\x7d_\x7blast\x7d'` (lines 103-109). -/
def inUnderscoreBucket (lp : List Char) : Bool :=
  includesChars ['_'] lp && (splitOnChar '_' lp).length == 2

/-- Bucket condition for `'\x7bfirst\x7d\x7blast\x7d'` (lines 112-116):
length above one and neither separator occurs. -/
def inNoSepBucket (lp : List Char) : Bool :=
  decide (1 < lp.length) && !includesChars ['.'] lp && !includesChars ['_'] lp

/-- `confidence: Math.min(samples.length / 3, 1)` (line 122).  Stated via
`mkRat` so that the definition evaluates by kernel reduction; it equals
`min (n / 3) 1` by `confidenceOf_eq` below. -/
def confidenceOf (n : Nat) : ℚ := min (mkRat n 3) 1

theorem confidenceOf_eq (n : Nat) : confidenceOf n = min ((n : ℚ) / 3) 1 := by
  unfold confidenceOf
  rw [Rat.mkRat_eq_div]
  norm_num

/-- One entry of the detector's output. -/
structure PatternEntry where
  pattern : String
  confidence : ℚ
  samples : List String
deriving DecidableEq, Repr

/-- The `'\x7bfirst\x7d.\x7blast\x7d'` pattern string. -/
def patDotName : String := "\x7bfirst\x7d.\x7blast\x7d"

/-- The `'\x7bfirst\x7d_\x7blast\x7d'` pattern string. -/
def patUnderscoreName : String := "\x7bfirst\x7d_\x7blast\x7d"

/-- The `'\x7bfirst\x7d\x7blast\x7d'` pattern string. -/
def patPlainName : String := "\x7bfirst\x7d\x7blast\x7d"

/-- Stable insertion into a list sorted by descending confidence: the
inserted entry (which precedes the list in the input) goes before every
entry with confidence not above its own. -/
def insertByConf (e : PatternEntry) : List PatternEntry → List PatternEntry
  | [] => [e]
  | x :: xs =>
    if x.confidence ≤ e.confidence then e :: x :: xs
    else x :: insertByConf e xs

/-- `.sort((a, b) => b.confidence - a.confidence)` (line 124): stable sort
by descending confidence. -/
def sortByConfDesc : List PatternEntry → List PatternEntry
  | [] => []
  | x :: xs => insertByConf x (sortByConfDesc xs)

/-- `detectNamePatterns` (lines 88-125).  The `domain` argument is unused
in the source as well. -/
def detectNamePatterns (emails : List String) (_domain : String) : List PatternEntry :=
  let dotS := emails.filter fun e => inDotBucket (localPartOf e)
  let usS := emails.filter fun e => inUnderscoreBucket (localPartOf e)
  let plainS := emails.filter fun e => inNoSepBucket (localPartOf e)
  let entries :=
    (if dotS.isEmpty then [] else [⟨patDotName, confidenceOf dotS.length, dotS⟩]) ++
      (if usS.isEmpty then [] else [⟨patUnderscoreName, confidenceOf usS.length, usS⟩]) ++
      (if plainS.isEmpty then [] else [⟨patPlainName, confidenceOf plainS.length, plainS⟩])
  sortByConfDesc entries

/-- Descending order on confidences, as used by the sort. -/
def confGE (a b : PatternEntry) : Prop := b.confidence ≤ a.confidence

theorem mem_insertByConf (e y : PatternEntry) (l : List PatternEntry)
    (h : y ∈ insertByConf e l) : y = e ∨ y ∈ l := by
  induction l with
  | nil => simpa [insertByConf] using h
  | cons x xs ih =>
    by_cases hc : x.confidence ≤ e.confidence
    · simp only [insertByConf, if_pos hc] at h
      rcases List.mem_cons.mp h with h1 | h1
      · exact Or.inl h1
      · exact Or.inr h1
    · simp only [insertByConf, if_neg hc] at h
      rcases List.mem_cons.mp h with h1 | h1
      · exact Or.inr (by simp [h1])
      · rcases ih h1 with h2 | h2
        · exact Or.inl h2
        · exact Or.inr (by simp [h2])

theorem pairwise_insertByConf (e : PatternEntry) (l : List PatternEntry)
    (h : l.Pairwise confGE) : (insertByConf e l).Pairwise confGE := by
  induction l with
  | nil => simp [insertByConf, List.Pairwise]
  | cons x xs ih =>
    rcases List.pairwise_cons.mp h with ⟨hx, hxs⟩
    by_cases hc : x.confidence ≤ e.confidence
    · simp only [insertByConf, if_pos hc]
      refine List.pairwise_cons.mpr ⟨?_, h⟩
      intro y hy
      rcases List.mem_cons.mp hy with h1 | h1
      · subst h1; exact hc
      · exact le_trans (hx y h1) hc
    · simp only [insertByConf, if_neg hc]
      refine List.pairwise_cons.mpr ⟨?_, ih hxs⟩
      intro y hy
      rcases mem_insertByConf e y xs hy with h1 | h1
      · subst h1; exact le_of_lt (not_le.mp hc)
      · exact hx y h1

theorem pairwise_sortByConfDesc (l : List PatternEntry) :
    (sortByConfDesc l).Pairwise confGE := by
  induction l with
  | nil => simp [sortByConfDesc, List.Pairwise]
  | cons x xs ih => exact pairwise_insertByConf x (sortByConfDesc xs) ih

theorem mem_sortByConfDesc (y : PatternEntry) (l : List PatternEntry)
    (h : y ∈ sortByConfDesc l) : y ∈ l := by
  induction l with
  | nil => simp [sortByConfDesc] at h
  | cons x xs ih =>
    rcases mem_insertByConf x y (sortByConfDesc xs) h with h' | h'
    · simp [h']
    · simp [ih h']

end CrawlDomain

namespace CrawlDomain

/-- **C6** Every entry the pattern detector returns has
`confidence = min(sample_count / 3, 1)`; that confidence formula is
non-decreasing in the sample count and saturates at 1 once the count
reaches 3; and the output list is sorted by descending confidence. -/
theorem c6_pattern_confidence (emails : List String) (domain : String) :
    (∀ e ∈ detectNamePatterns emails domain,
        e.confidence = min ((e.samples.length : ℚ) / 3) 1) ∧
      (∀ m n : Nat, m ≤ n → confidenceOf m ≤ confidenceOf n) ∧
      (∀ n : Nat, 3 ≤ n → confidenceOf n = 1) ∧
      (detectNamePatterns emails domain).Pairwise confGE := by
  refine ⟨?_, ?_, ?_, ?_⟩
  · intro e he
    simp only [detectNamePatterns] at he
    have hm := mem_sortByConfDesc e _ he
    have memIte : ∀ (p : Prop) (_ : Decidable p) (x : PatternEntry),
        e ∈ (if p then ([] : List PatternEntry) else [x]) → e = x := by
      intro p hp x hx
      by_cases hc : p
      · simp [hc] at hx
      · simp [hc] at hx
        exact hx
    rcases List.mem_append.mp hm with h1 | h1
    · rcases List.mem_append.mp h1 with h2 | h2
      · have := memIte _ _ _ h2
        subst this
        simp [confidenceOf_eq]
      · have := memIte _ _ _ h2
        subst this
        simp [confidenceOf_eq]
    · have := memIte _ _ _ h1
      subst this
      simp [confidenceOf_eq]
  · intro m n hmn
    rw [confidenceOf_eq, confidenceOf_eq]
    refine min_le_min ?_ le_rfl
    exact (div_le_div_iff_of_pos_right (by norm_num)).mpr (by exact_mod_cast hmn)
  · intro n h3
    rw [confidenceOf_eq]
    refine min_eq_right ?_
    rw [le_div_iff₀ (by norm_num : (0 : ℚ) < 3), one_mul]
    exact_mod_cast h3
  · simp only [detectNamePatterns]
    exact pairwise_sortByConfDesc _

/-- Witness for C6: on two `first.last` samples the detector returns the
dot pattern with confidence `2/3`, and the formula's monotonicity and
saturation hold at concrete counts. -/
theorem c6_witness :
    (⟨patDotName, confidenceOf 2, ["a.b@x.com", "c.d@x.com"]⟩ : PatternEntry).confidence =
        min (((["a.b@x.com", "c.d@x.com"] : List String).length : ℚ) / 3) 1 ∧
      confidenceOf 1 ≤ confidenceOf 2 ∧ confidenceOf 3 = 1 := by
  have h := c6_pattern_confidence ["a.b@x.com", "c.d@x.com"] "x.com"
  refine ⟨?_, h.2.1 1 2 (by norm_num), h.2.2.1 3 (by norm_num)⟩
  have hmem : (⟨patDotName, confidenceOf 2, ["a.b@x.com", "c.d@x.com"]⟩ : PatternEntry) ∈
      detectNamePatterns ["a.b@x.com", "c.d@x.com"] "x.com" := by decide
  exact h.1 _ hmem

/-- **C7, counterexample** The local part `"a_b.c"` contains exactly one
dot and exactly one underscore, so the detector counts the email in BOTH
the `first.last` and the `first_last` buckets — the claim that no local
part lands in more than one bucket is false. -/
theorem c7_counterexample :
    (detectNamePatterns ["a_b.c@x.com"] "x.com").map (fun e => (e.pattern, e.samples)) =
      [(patDotName, ["a_b.c@x.com"]), (patUnderscoreName, ["a_b.c@x.com"])] := by
  decide

/-- **C7, amended** Bucket membership as the code actually decides it: the
dot bucket takes local parts with exactly one `.`, the underscore bucket
those with exactly one `_`, and the no-separator bucket those of length
above one with neither separator.  The buckets are not exclusive (one `.`
and one `_` lands in two) nor exhaustive (two dots, or a single-character
local part, lands in none). -/
theorem c7_amended_buckets (lp : List Char) :
    inDotBucket lp = (countChar '.' lp == 1) ∧
      inUnderscoreBucket lp = (countChar '_' lp == 1) ∧
      inNoSepBucket lp =
        (decide (1 < lp.length) && countChar '.' lp == 0 && countChar '_' lp == 0) := by
  have hdot := includesChars_single '.' lp
  have hus := includesChars_single '_' lp
  have hld := length_splitOnChar '.' lp
  have hlu := length_splitOnChar '_' lp
  refine ⟨?_, ?_, ?_⟩
  · simp only [inDotBucket, hdot, hld]
    cases hn : countChar '.' lp with
    | zero => simp
    | succ k => cases k <;> simp
  · simp only [inUnderscoreBucket, hus, hlu]
    cases hn : countChar '_' lp with
    | zero => simp
    | succ k => cases k <;> simp
  · simp only [inNoSepBucket, hdot, hus]
    cases hn : countChar '.' lp <;> cases hm : countChar '_' lp <;> simp

end CrawlDomain

/-!
## `generate-email-candidates/index.ts` — `generateEmailPermutations`

The candidate generator (lines 84-106): lower-case the names, take the
initials with `charAt(0)`, substitute the placeholders into each pattern
of the fixed `EMAIL_PATTERNS` library in order, append `@domain`
(lower-cased), keep only syntactically valid addresses, and skip any
address already produced (dedupe by final address, preserving first
occurrence).  `generateFromPatterns` makes the pattern pool an argument;
`generateEmailPermutations` instantiates it with `EMAIL_PATTERNS`.
-/

namespace GenCandidates

/-- The fixed pattern library `EMAIL_PATTERNS` (lines 11-44). -/
def EMAIL_PATTERNS : List String :=
  ["\x7bfirst\x7d.\x7blast\x7d", "\x7bfirst\x7d\x7blast\x7d",
   "\x7bf\x7d.\x7blast\x7d", "\x7bf\x7d\x7blast\x7d",
   "\x7bfirst\x7d.\x7bl\x7d", "\x7bfirst\x7d\x7bl\x7d",
   "\x7bfirst\x7d", "\x7blast\x7d",
   "\x7bf\x7d.\x7bl\x7d", "\x7bf\x7d\x7bl\x7d",
   "\x7bfirst\x7d_\x7blast\x7d", "\x7bf\x7d_\x7blast\x7d",
   "\x7bfirst\x7d_\x7bl\x7d", "\x7bf\x7d_\x7bl\x7d",
   "\x7blast\x7d.\x7bfirst\x7d", "\x7blast\x7d\x7bfirst\x7d",
   "\x7blast\x7d.\x7bf\x7d", "\x7blast\x7d\x7bf\x7d",
   "\x7bl\x7d.\x7bfirst\x7d", "\x7bl\x7d\x7bfirst\x7d",
   "\x7bl\x7d.\x7bf\x7d", "\x7bl\x7d\x7bf\x7d",
   "info", "contact", "admin", "support", "hello", "team", "sales",
   "marketing", "hr", "finance"]

/-- One character of the regex class `[^\s@]`. -/
def noWsNoAt (c : Char) : Bool := !c.isWhitespace && !(c == '@')

/-- This function's own `validateEmailSyntax` (lines 47-50), the simple
anchored regex `^[^\s@]+@[^\s@]+\.[^\s@]+$`: exactly one `@`, nonempty
local part without whitespace, and a rest without whitespace containing a
literal dot that is neither its first nor its last character. -/
def validateEmailSyntax (email : String) : Bool :=
  match splitOnChar '@' email.data with
  | [localPart, rest] =>
    !localPart.isEmpty && localPart.all noWsNoAt && rest.all noWsNoAt &&
      ((rest.drop 1).dropLast).contains '.'
  | _ => false

/-- `str.replace(/pat/g, rep)` for one placeholder given as a string. -/
def substPlaceholder (patStr : String) (rep : List Char) (l : List Char) : List Char :=
  match patStr.data with
  | [] => l
  | c :: cs => replaceAllChars c cs rep l

/-- The four chained global replacements of lines 92-96, in source order:
`\x7bfirst\x7d`, then `\x7blast\x7d`, then `\x7bf\x7d`, then `\x7bl\x7d`. -/
def applyPattern (pattern : String) (first last finit linit : List Char) : List Char :=
  substPlaceholder "\x7bl\x7d" linit
    (substPlaceholder "\x7bf\x7d" finit
      (substPlaceholder "\x7blast\x7d" last
        (substPlaceholder "\x7bfirst\x7d" first pattern.data)))

/-- One candidate address: substituted pattern, `@`, lower-cased domain
(line 98).  The initials are `charAt(0)` of the lower-cased names, which
is the empty string on an empty name. -/
def candidateEmail (pattern firstName lastName domain : String) : String :=
  let first := listToLower firstName.data
  let last := listToLower lastName.data
  String.mk (applyPattern pattern first last (first.take 1) (last.take 1) ++
    '@' :: listToLower domain.data)

/-- Loop body of lines 91-103: keep the address if syntactically valid and
not already collected. -/
def generateStep (firstName lastName domain : String)
    (emails : List String) (pattern : String) : List String :=
  let email := candidateEmail pattern firstName lastName domain
  if validateEmailSyntax email && !(emails.contains email) then emails ++ [email]
  else emails

/-- `generateEmailPermutations` over an arbitrary pattern pool. -/
def generateFromPatterns (patterns : List String)
    (firstName lastName domain : String) : List String :=
  patterns.foldl (generateStep firstName lastName domain) []

/-- `generateEmailPermutations` (lines 84-106). -/
def generateEmailPermutations (firstName lastName domain : String) : List String :=
  generateFromPatterns EMAIL_PATTERNS firstName lastName domain

theorem nodup_generateStep (firstName lastName domain pattern : String)
    (emails : List String) (h : emails.Nodup) :
    (generateStep firstName lastName domain emails pattern).Nodup := by
  unfold generateStep
  by_cases hc : (validateEmailSyntax (candidateEmail pattern firstName lastName domain) &&
      !(emails.contains (candidateEmail pattern firstName lastName domain))) = true
  · rw [if_pos hc]
    simp only [Bool.and_eq_true] at hc
    obtain ⟨-, hnc⟩ := hc
    have hnm : candidateEmail pattern firstName lastName domain ∉ emails := by
      simp only [Bool.not_eq_true'] at hnc
      simpa using hnc
    simp [List.nodup_append, h, hnm]
  · rw [if_neg hc]
    exact h

theorem nodup_generateFold (patterns : List String) (firstName lastName domain : String)
    (acc : List String) (h : acc.Nodup) :
    (patterns.foldl (generateStep firstName lastName domain) acc).Nodup := by
  induction patterns generalizing acc with
  | nil => simpa [List.foldl]
  | cons p ps ih =>
    exact ih (generateStep firstName lastName domain acc p)
      (nodup_generateStep firstName lastName domain p acc h)

/-- **C9** Candidate generation is a pure function of the name, domain and
pattern pool — two calls with identical inputs give the identical,
identically-ordered list — and the output never contains the same final
address twice. -/
theorem c9_generator_deterministic_nodup (patterns : List String)
    (firstName lastName domain : String) :
    generateFromPatterns patterns firstName lastName domain =
        generateFromPatterns patterns firstName lastName domain ∧
      (generateFromPatterns patterns firstName lastName domain).Nodup ∧
      (generateEmailPermutations firstName lastName domain).Nodup :=
  ⟨rfl,
    nodup_generateFold patterns firstName lastName domain [] List.nodup_nil,
    nodup_generateFold EMAIL_PATTERNS firstName lastName domain [] List.nodup_nil⟩

end GenCandidates

/-!
## `generate-email-candidates/index.ts` — Test status flow

The serve handler's status writes (lines 146-188) and the background task
`verifyEmailCandidates` (lines 208-311), abstracted as the sequence of
`tests.status` updates each outcome produces:

* the handler sets `generating` (147-150), builds the permutations (a pure
  step), inserts the candidates (172-179) — an insert error is thrown and
  caught by the handler's catch (198-204), which returns a 500 response
  and performs **no** further status update;
* on successful insert, the handler sets `verifying` (182-185) and spawns
  the background task, whose try ends by setting `completed` (296-299) and
  whose catch sets `failed` (303-311); per-email errors inside the loop
  are caught per candidate (273-292) and do not touch the test status.
-/

namespace GenFlow

/-- `tests.status` values (§3 of the data model). -/
inductive TestStatus
  | pending
  | generating
  | verifying
  | completed
  | failed
deriving DecidableEq, Repr

/-- Outcome of one run of the generation flow for a Test that was found:
either the candidate insert fails, or the background verification task
fails, or everything succeeds. -/
inductive GenOutcome
  | insertFailed
  | verifyTaskFailed
  | success
deriving DecidableEq, Repr

/-- The ordered `tests.status` updates issued for each outcome. -/
def testStatusUpdates : GenOutcome → List TestStatus
  | .insertFailed => [.generating]
  | .verifyTaskFailed => [.generating, .verifying, .failed]
  | .success => [.generating, .verifying, .completed]

/-- The status a Test is left in (it starts `pending`). -/
def finalTestStatus (o : GenOutcome) : TestStatus :=
  (testStatusUpdates o).getLastD .pending

/-- **C5, counterexample** When the candidate insert itself fails, the
thrown error is caught by the handler's catch, which only returns an error
response: the Test stays in `generating` and is never marked `failed`. -/
theorem c5_counterexample :
    finalTestStatus GenOutcome.insertFailed = TestStatus.generating ∧
      finalTestStatus GenOutcome.insertFailed ≠ TestStatus.failed := by
  decide

/-- **C5, amended** A failure of the detached background verification task
does set the Test to `failed`, and a successful run ends `completed`; but
an unrecoverable error in the synchronous path after the status moved to
`generating` — the candidate insert failing — leaves the Test in
`generating` forever. -/
theorem c5_amended_status_flow :
    finalTestStatus GenOutcome.verifyTaskFailed = TestStatus.failed ∧
      finalTestStatus GenOutcome.success = TestStatus.completed ∧
      finalTestStatus GenOutcome.insertFailed = TestStatus.generating := by
  decide

end GenFlow

/-!
## Bounce webhook handler (`src/unnamed/part_004`, lines 39-82)

On an `email.bounced` or `email.delivery_delayed` event the handler
updates every `email_candidates` row whose `email` matches the event's
`to` address (status `bounced`, a fresh details JSON carrying bounce type,
reason, a `bounced_at` timestamp and the message id, and a fresh
`updated_at`), and every `email_test_results` row whose `message_id`
matches (status `bounced`, bounce details with a fresh `bounced_at`).
The handler takes the processing time as an explicit `now` argument.  The
`email.delivered` branch (lines 85-122) is independent of the bounce claim
and not modelled.
-/

namespace BounceWebhook

/-- The JSON written to `email_candidates.verification_details`
(lines 49-54). -/
structure CandBounceDetails where
  bounce_type : Option String
  bounce_reason : Option String
  bounced_at : String
  message_id : String
deriving DecidableEq, Repr

/-- The JSON written to `email_test_results.bounce_details` (lines 70-74). -/
structure TrBounceDetails where
  bounce_type : Option String
  bounce_reason : Option String
  bounced_at : String
deriving DecidableEq, Repr

/-- An `email_candidates` row (the fields the handler touches or keys on). -/
structure Candidate where
  email : String
  verification_status : String
  verification_details : Option CandBounceDetails
  updated_at : String
deriving DecidableEq, Repr

/-- An `email_test_results` row. -/
structure TestResultRow where
  message_id : String
  delivery_status : String
  bounce_details : Option TrBounceDetails
  updated_at : String
deriving DecidableEq, Repr

/-- The two tables the bounce branch updates. -/
structure DbState where
  candidates : List Candidate
  testResults : List TestResultRow
deriving DecidableEq, Repr

/-- A webhook payload (`BounceWebhookData`, lines 15-26); the source field
`to` is rendered `toAddr` and `type` is rendered `etype`. -/
structure WebhookEvent where
  etype : String
  email_id : String
  toAddr : String
  bounce_type : Option String
  bounce_reason : Option String
deriving DecidableEq, Repr

/-- The bounce branch of the serve handler (lines 39-82), as a state
transformer over the two tables. -/
def processBounceWebhook (ev : WebhookEvent) (now : String) (st : DbState) : DbState :=
  if ev.etype == "email.bounced" || ev.etype == "email.delivery_delayed" then
    { candidates := st.candidates.map fun c =>
        if c.email == ev.toAddr then
          { c with
            verification_status := "bounced"
            verification_details :=
              some ⟨ev.bounce_type, ev.bounce_reason, now, ev.email_id⟩
            updated_at := now }
        else c
      testResults := st.testResults.map fun t =>
        if t.message_id == ev.email_id then
          { t with
            delivery_status := "bounced"
            bounce_details := some ⟨ev.bounce_type, ev.bounce_reason, now⟩
            updated_at := now }
        else t }
  else st

/-- A candidate row with its volatile timestamps erased: address, status,
and the time-independent part of the bounce details. -/
def candidateSemantics (c : Candidate) :
    String × String × Option (Option String × Option String × String) :=
  (c.email, c.verification_status,
    c.verification_details.map fun b => (b.bounce_type, b.bounce_reason, b.message_id))

/-- A test-result row with its volatile timestamps erased. -/
def testResultSemantics (t : TestResultRow) :
    String × String × Option (Option String × Option String) :=
  (t.message_id, t.delivery_status,
    t.bounce_details.map fun b => (b.bounce_type, b.bounce_reason))

end BounceWebhook

namespace BounceWebhook

/-- A sample bounce event used to exhibit the timestamp overwrite. -/
def sampleEvent : WebhookEvent :=
  { etype := "email.bounced", email_id := "msg-1", toAddr := "a@x.com",
    bounce_type := some "hard", bounce_reason := some "mailbox not found" }

/-- A sample database state with one matching candidate and test result. -/
def sampleState : DbState :=
  { candidates := [{ email := "a@x.com", verification_status := "pending",
                     verification_details := none, updated_at := "t0" }],
    testResults := [{ message_id := "msg-1", delivery_status := "pending",
                      bounce_details := none, updated_at := "t0" }] }

/-- **C8, counterexample** Delivering the same bounce event twice leaves
the candidate `bounced` both times, but the second delivery rewrites the
details JSON with its own `bounced_at` timestamp, so the stored
bounce details after the second delivery differ from those after the
first. -/
theorem c8_counterexample :
    (processBounceWebhook sampleEvent "2025-01-01T00:00:00Z" sampleState).candidates.map
        (fun c => c.verification_status) = ["bounced"] ∧
      (processBounceWebhook sampleEvent "2025-01-02T00:00:00Z"
          (processBounceWebhook sampleEvent "2025-01-01T00:00:00Z" sampleState)).candidates.map
        (fun c => c.verification_status) = ["bounced"] ∧
      (processBounceWebhook sampleEvent "2025-01-02T00:00:00Z"
          (processBounceWebhook sampleEvent "2025-01-01T00:00:00Z" sampleState)).candidates.map
        (fun c => c.verification_details) ≠
        (processBounceWebhook sampleEvent "2025-01-01T00:00:00Z" sampleState).candidates.map
          (fun c => c.verification_details) := by
  decide

/-- **C8, amended** Re-delivering the same bounce event is idempotent up
to timestamps: at an identical processing time the second delivery is a
strict no-op, and at any processing times the second delivery leaves every
row's address/id, status and time-independent bounce fields (type, reason,
message id) exactly as the first delivery left them — only `bounced_at`
and `updated_at` are overwritten, last write wins. -/
theorem c8_amended_idempotence (ev : WebhookEvent) (now now1 now2 : String)
    (st : DbState) :
    processBounceWebhook ev now (processBounceWebhook ev now st) =
        processBounceWebhook ev now st ∧
      (processBounceWebhook ev now2 (processBounceWebhook ev now1 st)).candidates.map
          candidateSemantics =
        (processBounceWebhook ev now1 st).candidates.map candidateSemantics ∧
      (processBounceWebhook ev now2 (processBounceWebhook ev now1 st)).testResults.map
          testResultSemantics =
        (processBounceWebhook ev now1 st).testResults.map testResultSemantics := by
  by_cases he : (ev.etype == "email.bounced" || ev.etype == "email.delivery_delayed") = true
  · obtain ⟨cands, trs⟩ := st
    refine ⟨?_, ?_, ?_⟩
    · simp only [processBounceWebhook, he, if_pos, List.map_map, DbState.mk.injEq]
      constructor
      · apply List.map_congr_left
        intro c _
        by_cases hm : (c.email == ev.toAddr) = true
        · simp [Function.comp, hm]
        · simp [Function.comp, hm]
      · apply List.map_congr_left
        intro t _
        by_cases hm : (t.message_id == ev.email_id) = true
        · simp [Function.comp, hm]
        · simp [Function.comp, hm]
    · simp only [processBounceWebhook, he, if_pos, List.map_map]
      apply List.map_congr_left
      intro c _
      by_cases hm : (c.email == ev.toAddr) = true
      · simp [Function.comp, hm, candidateSemantics]
      · simp [Function.comp, hm]
    · simp only [processBounceWebhook, he, if_pos, List.map_map]
      apply List.map_congr_left
      intro t _
      by_cases hm : (t.message_id == ev.email_id) = true
      · simp [Function.comp, hm, testResultSemantics]
      · simp [Function.comp, hm]
  · simp only [Bool.not_eq_true] at he
    simp [processBounceWebhook, he]

end BounceWebhook
